import Mathlib

/-!
Verification development for the `tracer-go` distributed-tracing helper
(`tracer.go`).  The Go source is shallowly embedded: Go's mutable
`http.Header` (a case-insensitive, string-keyed, multi-valued mapping) is
modelled as an association list transformed functionally; spans are records
accumulating tags, logs and baggage; nilable Go values (`opentracing.Span`,
`context.Context`, `error`) are `Option`s.  The external jaeger/zipkin
codec installed by `InitGlobalTracer` (the B3 HTTP-header propagator, used
for both `Inject` and `Extract` on the `HTTPHeaders` format) is embedded as
executable `tracerInject` / `tracerExtract` functions, and
`jaeger.ContextFromString` as `contextFromString`.
-/

/-- ASCII lower-casing of a string, as Go's `strings.ToLower` behaves on the
(ASCII) header names this code handles. -/
def toLowerStr (s : String) : String :=
  ⟨s.data.map Char.toLower⟩

/-- Does the character list start with the four characters of `"auth"`? -/
def startsWithAuth : List Char → Bool
  | 'a' :: 'u' :: 't' :: 'h' :: _ => true
  | _ => false

/-- Model of `strings.Contains l "auth"` on a character list. -/
def containsAuthList : List Char → Bool
  | [] => false
  | c :: cs => startsWithAuth (c :: cs) || containsAuthList cs

/-- Go's `strings.Contains s "auth")`. -/
def containsAuth (s : String) : Bool :=
  containsAuthList s.data

/-- Lower-case hexadecimal digit character, as produced by Go's
`strconv.FormatUint(_, 16)`. -/
def hexDigitChar (n : Nat) : Char :=
  if n < 10 then Char.ofNat (48 + n) else Char.ofNat (87 + n)

/-- Hex digit list of `n`, most significant first; fuel-based structural
recursion (`fuel > n` suffices, since `n / 16 < n` for `n ≥ 16`). -/
def toHexAux (fuel n : Nat) : List Char :=
  match fuel with
  | 0 => []
  | fuel + 1 =>
    if n < 16 then [hexDigitChar n]
    else toHexAux fuel (n / 16) ++ [hexDigitChar (n % 16)]

/-- Go's `strconv.FormatUint(n, 16)`. -/
def toHexStr (n : Nat) : String :=
  ⟨toHexAux (n + 1) n⟩

/-- Numeric value of a hexadecimal digit character (either case), `none`
for a non-digit. -/
def hexVal? (c : Char) : Option Nat :=
  if 48 ≤ c.toNat ∧ c.toNat ≤ 57 then some (c.toNat - 48)
  else if 97 ≤ c.toNat ∧ c.toNat ≤ 102 then some (c.toNat - 87)
  else if 65 ≤ c.toNat ∧ c.toNat ≤ 70 then some (c.toNat - 55)
  else none

/-- Accumulating hexadecimal parse of a digit list; `none` on any
non-digit. -/
def parseHexCore : List Char → Nat → Option Nat
  | [], acc => some acc
  | c :: cs, acc =>
    match hexVal? c with
    | some d => parseHexCore cs (16 * acc + d)
    | none => none

/-- Go's `strconv.ParseUint(l, 16, 64)` on a character list (widths are not
modelled: no claim involves values near `2^64`). Empty input is rejected. -/
def parseHexList? (l : List Char) : Option Nat :=
  match l with
  | [] => none
  | _ :: _ => parseHexCore l 0

/-- Go's `strconv.ParseUint(s, 16, 64)`. -/
def parseHex? (s : String) : Option Nat :=
  parseHexList? s.data

/-- Numeric value of a decimal digit character. -/
def decVal? (c : Char) : Option Nat :=
  if 48 ≤ c.toNat ∧ c.toNat ≤ 57 then some (c.toNat - 48) else none

/-- Accumulating decimal parse. -/
def parseDecCore : List Char → Nat → Option Nat
  | [], acc => some acc
  | c :: cs, acc =>
    match decVal? c with
    | some d => parseDecCore cs (16 * acc + d)
    | none => none

/-- Go's `strconv.ParseUint(l, 10, 8)` on a character list. -/
def parseDecList? (l : List Char) : Option Nat :=
  match l with
  | [] => none
  | _ :: _ => parseDecCore l 0

/-- Model of `strings.Split` on a single separator character, over character
lists. -/
def splitOnChar (sep : Char) : List Char → List (List Char)
  | [] => [[]]
  | c :: cs =>
    match splitOnChar sep cs with
    | [] => [[]]
    | part :: parts =>
      if c = sep then [] :: part :: parts
      else (c :: part) :: parts

/-- Go's `http.Header`: a string-keyed, multi-valued header mapping.
Lookup is case-insensitive (net/http canonicalizes keys on both store and
lookup, which on canonically-stored headers is exactly case-insensitive
matching). -/
abbrev Header := List (String × List String)

/-- Does the entry's key match header name `k` (case-insensitively)? -/
def headerMatches (k : String) (kv : String × List String) : Bool :=
  toLowerStr kv.1 == toLowerStr k

/-- The value slice stored under header name `k` (`h[CanonicalKey(k)]`);
`[]` when absent. -/
def headerValues (h : Header) (k : String) : List String :=
  match h.find? (headerMatches k) with
  | some kv => kv.2
  | none => []

/-- Go's `Header.Get`: first value stored under the key, `""` when absent
or empty. -/
def headerGet (h : Header) (k : String) : String :=
  (headerValues h k).headD ""

/-- Go's `Header.Set`: replace the value slice under the key by the single
value `v` (appending a fresh entry when the key is absent). -/
def headerSet (h : Header) (k v : String) : Header :=
  if h.any (headerMatches k) then
    h.map (fun kv => if headerMatches k kv then (kv.1, [v]) else kv)
  else h ++ [(k, [v])]

/-- Model of `jaeger.SpanContext` / `opentracing.SpanContext`: the propagable
identity of a span. `flags` bit 0 is the sampling decision. -/
structure SpanContext where
  traceID : Nat
  spanID : Nat
  parentID : Nat
  flags : Nat
deriving DecidableEq

/-- An `opentracing.Span` as mutated by this code: operation name, tags,
structured log fields, baggage, the parent reference from the
`ChildOf` start option, its own context, and the finished flag. -/
structure Span where
  operationName : String
  tags : List (String × String)
  logs : List (String × String)
  baggage : List (String × String)
  parent : Option SpanContext
  context : SpanContext
  finished : Bool
deriving DecidableEq

/-- Model of `span.SetTag(k, v)` on a (non-nil) span. -/
def setTagSpan (s : Span) (k v : String) : Span :=
  { s with tags := s.tags ++ [(k, v)] }

/-- Model of `opentracing.StartSpan(name)` without a `ChildOf` option: a root span.
The backend draws fresh random ids; the model fixes them (ids of a root
span are never inspected by this code). The const-sampler makes every
span sampled (`flags = 1`). -/
def startSpanRoot (name : String) : Span :=
  ⟨name, [], [], [], none, ⟨0, 0, 0, 1⟩, false⟩

/-- Model of `opentracing.StartSpan(name, opentracing.ChildOf(parent))`: a child
span; the trace id and sampling flags are inherited, the span id is fresh
(modelled as successor) and the parent id records the parent's span id. -/
def startSpanChild (name : String) (parent : SpanContext) : Span :=
  ⟨name, [], [], [], some parent,
    ⟨parent.traceID, parent.spanID + 1, parent.spanID, parent.flags⟩, false⟩

/-- A (non-nil) Go `context.Context` as used by this code: a carrier
holding at most one current span (`opentracing.SpanFromContext`). A nil
`context.Context` is `Option GoContext`'s `none`. -/
structure GoContext where
  currentSpan : Option Span
deriving DecidableEq

/-- Model of `opentracing.ContextWithSpan(ctx, span)`. -/
def contextWithSpan (_parent : GoContext) (s : Span) : GoContext :=
  ⟨some s⟩

/-- Model of `opentracing.StartSpanFromContext(ctx, name)` on a non-nil context:
child of the context's current span when one is present, otherwise a new
root span; the new span becomes the returned context's current span. -/
def otStartSpanFromContext (c : GoContext) (name : String) : Span × GoContext :=
  match c.currentSpan with
  | some p =>
    let s := startSpanChild name p.context
    (s, contextWithSpan c s)
  | none =>
    let s := startSpanRoot name
    (s, contextWithSpan c s)

/-- A Go `error` value; nil errors are `Option GoError`'s `none`. -/
structure GoError where
  msg : String
deriving DecidableEq

/-- An outbound `*http.Request`: the fields this code reads or writes. -/
structure HTTPRequest where
  header : Header
  host : String
  requestURI : String
  method : String
deriving DecidableEq

/-- An inbound `*restful.Request`: its underlying `http.Request`'s
headers, method, host, request URI, and (never-nil) request context. -/
structure RestfulRequest where
  header : Header
  host : String
  requestURI : String
  method : String
  context : GoContext
deriving DecidableEq

/-- The zipkin B3 HTTP-header propagator's `Inject` (installed by
`InitGlobalTracer` as the injector for the `HTTPHeaders` format):
`x-b3-traceid`, `x-b3-parentspanid` (only when the parent id is nonzero),
`x-b3-spanid` in lower-case hex, and `x-b3-sampled` as `"1"`/`"0"`. -/
def injectParent (sc : SpanContext) (h : Header) : Header :=
  if sc.parentID ≠ 0 then headerSet h "x-b3-parentspanid" (toHexStr sc.parentID)
  else h

/-- The sampling part of the B3 injector: `x-b3-sampled` is `"1"` exactly
when the context's sampled bit is set. -/
def injectSampled (sc : SpanContext) (h : Header) : Header :=
  if sc.flags % 2 = 1 then headerSet h "x-b3-sampled" "1"
  else headerSet h "x-b3-sampled" "0"

def tracerInject (sc : SpanContext) (h : Header) : Header :=
  injectSampled sc
    (headerSet
      (injectParent sc (headerSet h "x-b3-traceid" (toHexStr sc.traceID)))
      "x-b3-spanid" (toHexStr sc.spanID))

/-- One step of the B3 extractor's `ForeachKey` loop over lower-cased
(key, value) pairs: recognized numeric headers are parsed (a parse error
aborts extraction), `x-b3-sampled` of `"1"`/`"true"` sets the sampled
bit, anything else is skipped. Accumulator: (traceID, spanID, parentID,
sampled). -/
def extractStep (acc : Except String (Nat × Nat × Nat × Bool))
    (kv : String × String) : Except String (Nat × Nat × Nat × Bool) :=
  match acc with
  | .error e => .error e
  | .ok (t, sp, p, smp) =>
    if kv.1 == "x-b3-traceid" then
      match parseHex? kv.2 with
      | some n => .ok (n, sp, p, smp)
      | none => .error "strconv.ParseUint: parsing"
    else if kv.1 == "x-b3-parentspanid" then
      match parseHex? kv.2 with
      | some n => .ok (t, sp, n, smp)
      | none => .error "strconv.ParseUint: parsing"
    else if kv.1 == "x-b3-spanid" then
      match parseHex? kv.2 with
      | some n => .ok (t, n, p, smp)
      | none => .error "strconv.ParseUint: parsing"
    else if kv.1 == "x-b3-sampled" && (kv.2 == "1" || kv.2 == "true") then
      .ok (t, sp, p, true)
    else .ok (t, sp, p, smp)

/-- The zipkin B3 propagator's `Extract` (installed by `InitGlobalTracer`
as the extractor for the `HTTPHeaders` format): fold the extractor step
over every (lower-cased key, value) pair of the carrier; a zero trace id
(in particular: no `x-b3-traceid` header at all) yields
`opentracing.ErrSpanContextNotFound`. -/
def tracerExtract (h : Header) : Except String SpanContext :=
  let pairs := h.flatMap (fun kv => kv.2.map (fun v => (toLowerStr kv.1, v)))
  match pairs.foldl extractStep (.ok (0, 0, 0, false)) with
  | .error e => .error e
  | .ok (t, sp, p, smp) =>
    if t = 0 then .error "opentracing: SpanContext not found in Extract carrier"
    else .ok ⟨t, sp, p, if smp then 1 else 0⟩

/-- Model of `jaeger.ContextFromString`: `"traceid:spanid:parentid:flags"` with the
ids in hex and the flags in decimal; anything else is an error. -/
def contextFromString (s : String) : Except String SpanContext :=
  if s.data = [] then .error "tracer state string is empty"
  else
    match splitOnChar ':' s.data with
    | [t, sp, p, f] =>
      match parseHexList? t, parseHexList? sp, parseHexList? p, parseDecList? f with
      | some a, some b, some c, some d => .ok ⟨a, b, c, d⟩
      | _, _, _, _ => .error "malformed tracer state string"
    | _ => .error "malformed tracer state string"

/-- Model of `forwardHeaders` (tracer.go lines 27-33): the fixed allow-list of
non-tracing headers copied from the inbound to the outbound request. -/
def forwardHeaders : List String :=
  ["x-request-id", "x-ot-span-context", "x-cloud-trace-context",
    "traceparent", "grpc-trace-bin"]

/-- Model of `TraceIDKey` (tracer.go line 24): the application trace-id header. -/
def TraceIDKey : String := "X-Ab-TraceID"

/-- The lower-cased header names written by `tracerInject`. -/
def injectedHeaderNames : List String :=
  ["x-b3-traceid", "x-b3-parentspanid", "x-b3-spanid", "x-b3-sampled"]

/-- Model of `StartSpanFromContext` (tracer.go lines 240-247): start a span from
the context when the context is non-nil; on a nil context return a nil
span and the given (nil) context, starting nothing. -/
def StartSpanFromContext (ctx : Option GoContext) (operationName : String) :
    Option Span × Option GoContext :=
  match ctx with
  | some c =>
    let r := otStartSpanFromContext c operationName
    (some r.1, some r.2)
  | none => (none, ctx)

/-- Model of `StartDBSpan` (tracer.go lines 233-235). -/
def StartDBSpan (ctx : Option GoContext) (operationName : String) :
    Option Span × Option GoContext :=
  StartSpanFromContext ctx ("DB-" ++ operationName)

/-- Model of `StartChildSpan` (tracer.go lines 249-258). -/
def StartChildSpan (span : Option Span) (name : String) : Option Span :=
  match span with
  | some s => some (startSpanChild name s.context)
  | none => none

/-- Model of `AddLog` (tracer.go lines 289-293). -/
def AddLog (span : Option Span) (key value : String) : Option Span :=
  match span with
  | some s => some { s with logs := s.logs ++ [(key, value)] }
  | none => none

/-- Model of `AddTag` (tracer.go lines 296-300). -/
def AddTag (span : Option Span) (key value : String) : Option Span :=
  match span with
  | some s => some (setTagSpan s key value)
  | none => none

/-- Model of `AddBaggage` (tracer.go lines 305-309). -/
def AddBaggage (span : Option Span) (key value : String) : Option Span :=
  match span with
  | some s => some { s with baggage := s.baggage ++ [(key, value)] }
  | none => none

/-- Model of `Finish` (tracer.go lines 282-286). -/
def Finish (span : Option Span) : Option Span :=
  match span with
  | some s => some { s with finished := true }
  | none => none

/-- Model of `TraceError` (tracer.go lines 312-317): when both the span and the
error are non-nil, `AddLog(span, "error", err.Error())` then
`AddTag(span, "error", "true")`. -/
def TraceError (span : Option Span) (err : Option GoError) : Option Span :=
  match span, err with
  | some s, some e => AddTag (AddLog (some s) "error" e.msg) "error" "true"
  | _, _ => span

/-- Model of `TraceSQLQuery` (tracer.go lines 320-324). -/
def TraceSQLQuery (span : Option Span) (query : String) : Option Span :=
  match span with
  | some s => if query ≠ "" then AddLog (some s) "SQL" query else span
  | none => none

/-- Model of `ExtractRequestHeader` (tracer.go lines 275-279): extract a span
context from the inbound request's headers via the global tracer. -/
def ExtractRequestHeader (req : RestfulRequest) : Except String SpanContext :=
  tracerExtract req.header

/-- Model of `InjectSpanIntoRequest` (tracer.go lines 260-272): inject the span's
context into the request headers via the global tracer; a nil span is
skipped. (The B3 injector on a header carrier never fails, so the
returned error is always absent.) -/
def InjectSpanIntoRequest (span : Option Span) (req : HTTPRequest) :
    HTTPRequest × Option String :=
  match span with
  | some s => ({ req with header := tracerInject s.context req.header }, none)
  | none => (req, none)

/-- The redacted header mapping built for debug logging (tracer.go lines
115-126, 139-150, 182-193): keys are lower-cased, any key containing
`"auth"` is omitted, and the first value is kept. (Go indexes `val[0]`,
so an entry is only meaningful when it has a first value.) -/
def debugHeaderMap (h : Header) : List (String × String) :=
  h.filterMap (fun kv =>
    if containsAuth (toLowerStr kv.1) then none
    else
      match kv.2 with
      | v :: _ => some (toLowerStr kv.1, v)
      | [] => none)

/-- Model of `StartSpan` (tracer.go lines 138-175): extract a parent context from
the headers; on failure start a root span (the extraction error is only
debug-logged, never returned), on success a child span; tag with HTTP
method and URL, and with the application trace-id header when present. -/
def StartSpan (req : RestfulRequest) (operationName : String) :
    Option Span × Option GoContext :=
  let span :=
    match tracerExtract req.header with
    | .error _ => startSpanRoot operationName
    | .ok sc => startSpanChild operationName sc
  let span := setTagSpan span "http.method" req.method
  let span := setTagSpan span "http.url" (req.host ++ req.requestURI)
  let abTraceID := headerGet req.header TraceIDKey
  let span := if abTraceID ≠ "" then setTagSpan span TraceIDKey abTraceID else span
  (some span, some (contextWithSpan req.context span))

/-- Model of `StartSpanIfParentSpanExist` (tracer.go lines 181-212): identical to
`StartSpan` except that an extraction failure returns a nil span and nil
context instead of starting a root span. -/
def StartSpanIfParentSpanExist (req : RestfulRequest) (operationName : String) :
    Option Span × Option GoContext :=
  match tracerExtract req.header with
  | .error _ => (none, none)
  | .ok sc =>
    let span := startSpanChild operationName sc
    let span := setTagSpan span "http.method" req.method
    let span := setTagSpan span "http.url" (req.host ++ req.requestURI)
    let abTraceID := headerGet req.header TraceIDKey
    let span := if abTraceID ≠ "" then setTagSpan span TraceIDKey abTraceID else span
    (some span, some (contextWithSpan req.context span))

/-- Model of `ChildSpanFromRemoteSpan` (tracer.go lines 214-228): parse the
serialized context string; on success start a child of the parsed context
(returning the given context unchanged), on failure fall back to
`StartSpanFromContext`. -/
def ChildSpanFromRemoteSpan (rootCtx : Option GoContext) (name : String)
    (spanContextStr : String) : Option Span × Option GoContext :=
  match contextFromString spanContextStr with
  | .ok sc => (some (startSpanChild name sc), rootCtx)
  | .error _ => StartSpanFromContext rootCtx name

/-- One iteration of `InjectTrace`'s forwarding loop (tracer.go lines
106-110): copy the inbound header's first value when non-empty. -/
def forwardStep (incoming : Header) (h : Header) (name : String) : Header :=
  let value := headerGet incoming name
  if value ≠ "" then headerSet h name value else h

/-- The whole forwarding loop of `InjectTrace` over `forwardHeaders`. -/
def forwardAll (incoming h : Header) : Header :=
  forwardHeaders.foldl (forwardStep incoming) h

/-- The application trace-id copy of `InjectTrace` (tracer.go lines
128-130). -/
def abStep (incoming h : Header) : Header :=
  let abTraceID := headerGet incoming TraceIDKey
  if abTraceID ≠ "" then headerSet h TraceIDKey abTraceID else h

/-- Model of `InjectTrace` (tracer.go lines 95-133): start a span from the context;
when it is present, tag it with the outbound URL and method, inject its
context into the outbound headers, copy the allow-listed inbound headers
and finally the application trace-id header.  When the started span is
nil (nil context) the outgoing request is returned unmodified with nil
span and nil context — before the trace-id copy.  The debug logging of
the outgoing headers (`debugHeaderMap`) does not modify the request. -/
def InjectTrace (ctx : Option GoContext) (incomingReq : RestfulRequest)
    (outgoingReq : HTTPRequest) : HTTPRequest × Option Span × Option GoContext :=
  match StartSpanFromContext ctx "outgoing request" with
  | (some span, newCtx) =>
    let span := setTagSpan span "http.url" (outgoingReq.host ++ outgoingReq.requestURI)
    let span := setTagSpan span "http.method" outgoingReq.method
    let h := tracerInject span.context outgoingReq.header
    let h := forwardAll incomingReq.header h
    let h := abStep incomingReq.header h
    ({ outgoingReq with header := h }, some span, newCtx)
  | (none, _) => (outgoingReq, none, none)

theorem hexVal_hexDigitChar : ∀ d, d < 16 → hexVal? (hexDigitChar d) = some d := by
  decide

theorem parseHexCore_append (l₁ l₂ : List Char) (acc : Nat) :
    parseHexCore (l₁ ++ l₂) acc = (parseHexCore l₁ acc).bind (parseHexCore l₂) := by
  induction l₁ generalizing acc with
  | nil => simp [parseHexCore]
  | cons c cs ih =>
    simp only [List.cons_append, parseHexCore]
    cases hexVal? c with
    | some d => simp [ih]
    | none => simp

theorem parseHexCore_toHexAux (fuel : Nat) :
    ∀ n acc, n < fuel →
      parseHexCore (toHexAux fuel n) acc
        = some (acc * 16 ^ (toHexAux fuel n).length + n) := by
  induction fuel with
  | zero => intro n acc h; omega
  | succ fuel ih =>
    intro n acc h
    unfold toHexAux
    by_cases h16 : n < 16
    · simp [h16, parseHexCore, hexVal_hexDigitChar n h16]
      omega
    · simp only [h16, if_false]
      have hdiv : n / 16 < fuel := by
        have := Nat.div_lt_self (by omega : 0 < n) (by omega : 1 < 16)
        omega
      rw [parseHexCore_append, ih (n / 16) acc hdiv]
      have hmod : n % 16 < 16 := Nat.mod_lt _ (by omega)
      simp [parseHexCore, hexVal_hexDigitChar _ hmod, List.length_append, pow_succ,
        ← mul_assoc]
      generalize acc * 16 ^ (toHexAux fuel (n / 16)).length = B
      omega

theorem toHexAux_ne_nil (n : Nat) : toHexAux (n + 1) n ≠ [] := by
  unfold toHexAux
  by_cases h16 : n < 16 <;> simp [h16]

theorem parseHex?_toHexStr (n : Nat) : parseHex? (toHexStr n) = some n := by
  unfold parseHex? toHexStr parseHexList?
  cases hne : toHexAux (n + 1) n with
  | nil => exact absurd hne (toHexAux_ne_nil n)
  | cons c cs =>
    show parseHexCore (c :: cs) 0 = some n
    rw [← hne]
    have := parseHexCore_toHexAux (n + 1) n 0 (by omega)
    simpa using this

theorem toHexStr_ne_empty (n : Nat) : toHexStr n ≠ "" := by
  unfold toHexStr
  intro hcontra
  exact toHexAux_ne_nil n (congrArg String.data hcontra)

theorem headerMatches_key (k : String) (kv kv' : String × List String)
    (hk : kv'.1 = kv.1) : headerMatches k kv' = headerMatches k kv := by
  simp [headerMatches, hk]

theorem headerValues_headerSet_self (h : Header) (k v : String) :
    headerValues (headerSet h k v) k = [v] := by
  unfold headerSet
  by_cases hany : h.any (headerMatches k)
  · simp only [hany, if_true]
    unfold headerValues
    rw [List.find?_map]
    have hpf :
        (headerMatches k ∘ fun kv => if headerMatches k kv then (kv.1, [v]) else kv)
          = headerMatches k := by
      funext kv
      by_cases hm : headerMatches k kv <;>
        simp [hm, Function.comp, headerMatches_key k kv (kv.1, [v]) rfl]
    rw [hpf]
    cases hfind : h.find? (headerMatches k) with
    | none =>
      rw [List.find?_eq_none] at hfind
      obtain ⟨kv, hkv, hm⟩ := List.any_eq_true.mp hany
      exact absurd hm (by simpa using hfind kv hkv)
    | some kv' =>
      have hm' := List.find?_some hfind
      simp [hm']
  · rw [if_neg hany]
    unfold headerValues
    rw [List.find?_append]
    have hnone : h.find? (headerMatches k) = none := by
      rw [List.find?_eq_none]
      intro kv hkv hm
      exact hany (List.any_eq_true.mpr ⟨kv, hkv, hm⟩)
    rw [hnone]
    simp [List.find?, headerMatches]

theorem headerValues_headerSet_ne (h : Header) (k v k' : String)
    (hne : toLowerStr k' ≠ toLowerStr k) :
    headerValues (headerSet h k v) k' = headerValues h k' := by
  unfold headerSet
  by_cases hany : h.any (headerMatches k)
  · simp only [hany, if_true]
    unfold headerValues
    rw [List.find?_map]
    have hpf :
        (headerMatches k' ∘ fun kv => if headerMatches k kv then (kv.1, [v]) else kv)
          = headerMatches k' := by
      funext kv
      by_cases hm : headerMatches k kv <;>
        simp [hm, Function.comp, headerMatches_key k' kv (kv.1, [v]) rfl]
    rw [hpf]
    cases hfind : h.find? (headerMatches k') with
    | none => simp
    | some kv' =>
      have hm' := List.find?_some hfind
      have h1 : toLowerStr kv'.1 = toLowerStr k' := by
        simpa [headerMatches] using hm'
      have h2 : headerMatches k kv' = false := by
        simp [headerMatches, h1, hne]
      simp [h2]
  · rw [if_neg hany]
    unfold headerValues
    rw [List.find?_append]
    have hm2 : headerMatches k' (k, [v]) = false := by
      have : toLowerStr k ≠ toLowerStr k' := fun hcontra => hne hcontra.symm
      simp [headerMatches, this]
    have h2 : List.find? (headerMatches k') [(k, [v])] = none := by
      simp [List.find?, hm2]
    rw [h2]
    cases h.find? (headerMatches k') <;> simp

theorem headerGet_headerSet_self (h : Header) (k v : String) :
    headerGet (headerSet h k v) k = v := by
  unfold headerGet
  rw [headerValues_headerSet_self]
  rfl

theorem headerGet_headerSet_ne (h : Header) (k v k' : String)
    (hne : toLowerStr k' ≠ toLowerStr k) :
    headerGet (headerSet h k v) k' = headerGet h k' := by
  unfold headerGet
  rw [headerValues_headerSet_ne h k v k' hne]

theorem key_mem_headerSet (h : Header) (k v : String) (x : String)
    (hx : x ∈ (headerSet h k v).map Prod.fst) : x ∈ h.map Prod.fst ∨ x = k := by
  unfold headerSet at hx
  by_cases hany : h.any (headerMatches k)
  · simp only [hany, if_true] at hx
    rw [List.map_map] at hx
    have hpf :
        (Prod.fst ∘ fun kv => if headerMatches k kv then (kv.1, [v]) else kv)
          = Prod.fst := by
      funext kv
      by_cases hm : headerMatches k kv <;> simp [hm, Function.comp]
    rw [hpf] at hx
    exact Or.inl hx
  · rw [if_neg hany] at hx
    rw [List.map_append] at hx
    rcases List.mem_append.mp hx with h1 | h2
    · exact Or.inl h1
    · simp at h2
      exact Or.inr h2

theorem headerValues_forwardStep_ne (incoming h : Header) (name name' : String)
    (hne : toLowerStr name' ≠ toLowerStr name) :
    headerValues (forwardStep incoming h name) name' = headerValues h name' := by
  unfold forwardStep
  by_cases hg : headerGet incoming name ≠ ""
  · rw [if_pos hg, headerValues_headerSet_ne h name _ name' hne]
  · rw [if_neg hg]

theorem headerValues_foldl_forwardStep_ne (incoming : Header) (name : String)
    (names : List String) :
    ∀ h : Header, (∀ n ∈ names, toLowerStr name ≠ toLowerStr n) →
      headerValues (names.foldl (forwardStep incoming) h) name = headerValues h name := by
  induction names with
  | nil => intro h _; rfl
  | cons a t ih =>
    intro h hne
    rw [List.foldl_cons, ih (forwardStep incoming h a)
      (fun n hn => hne n (List.mem_cons_of_mem a hn))]
    exact headerValues_forwardStep_ne incoming h a name (hne a (List.mem_cons_self a t))

theorem headerValues_foldl_forwardStep_self (incoming : Header) (name : String)
    (names : List String) :
    ∀ h : Header, name ∈ names →
      names.Pairwise (fun a b => toLowerStr a ≠ toLowerStr b) →
      headerGet incoming name ≠ "" →
      headerValues (names.foldl (forwardStep incoming) h) name
        = [headerGet incoming name] := by
  induction names with
  | nil => intro h hmem; cases hmem
  | cons a t ih =>
    intro h hmem hdist hg
    rw [List.foldl_cons]
    rcases List.mem_cons.mp hmem with rfl | hmem'
    · have htail : ∀ n ∈ t, toLowerStr name ≠ toLowerStr n :=
        (List.pairwise_cons.mp hdist).1
      rw [headerValues_foldl_forwardStep_ne incoming name t _ htail]
      unfold forwardStep
      rw [if_pos hg, headerValues_headerSet_self]
    · exact ih (forwardStep incoming h a) hmem' (List.pairwise_cons.mp hdist).2 hg

theorem headerValues_foldl_forwardStep_empty (incoming : Header) (name : String)
    (names : List String) :
    ∀ h : Header, name ∈ names →
      names.Pairwise (fun a b => toLowerStr a ≠ toLowerStr b) →
      headerGet incoming name = "" →
      headerValues (names.foldl (forwardStep incoming) h) name
        = headerValues h name := by
  induction names with
  | nil => intro h hmem; cases hmem
  | cons a t ih =>
    intro h hmem hdist hg
    rw [List.foldl_cons]
    rcases List.mem_cons.mp hmem with rfl | hmem'
    · have htail : ∀ n ∈ t, toLowerStr name ≠ toLowerStr n :=
        (List.pairwise_cons.mp hdist).1
      rw [headerValues_foldl_forwardStep_ne incoming name t _ htail]
      unfold forwardStep
      simp [hg]
    · rw [ih (forwardStep incoming h a) hmem' (List.pairwise_cons.mp hdist).2 hg]
      exact headerValues_forwardStep_ne incoming h a name
        (fun hc => (List.pairwise_cons.mp hdist).1 name hmem' hc.symm)

theorem headerValues_injectParent_ne (sc : SpanContext) (h : Header) (name : String)
    (hne : toLowerStr name ≠ toLowerStr "x-b3-parentspanid") :
    headerValues (injectParent sc h) name = headerValues h name := by
  unfold injectParent
  by_cases hp : sc.parentID ≠ 0
  · rw [if_pos hp, headerValues_headerSet_ne h _ _ name hne]
  · rw [if_neg hp]

theorem headerValues_injectSampled_ne (sc : SpanContext) (h : Header) (name : String)
    (hne : toLowerStr name ≠ toLowerStr "x-b3-sampled") :
    headerValues (injectSampled sc h) name = headerValues h name := by
  unfold injectSampled
  by_cases hf : sc.flags % 2 = 1
  · rw [if_pos hf, headerValues_headerSet_ne h _ _ name hne]
  · rw [if_neg hf, headerValues_headerSet_ne h _ _ name hne]

theorem headerValues_tracerInject_ne (sc : SpanContext) (h : Header) (name : String)
    (h1 : toLowerStr name ≠ toLowerStr "x-b3-traceid")
    (h2 : toLowerStr name ≠ toLowerStr "x-b3-parentspanid")
    (h3 : toLowerStr name ≠ toLowerStr "x-b3-spanid")
    (h4 : toLowerStr name ≠ toLowerStr "x-b3-sampled") :
    headerValues (tracerInject sc h) name = headerValues h name := by
  unfold tracerInject
  rw [headerValues_injectSampled_ne _ _ _ h4,
    headerValues_headerSet_ne _ _ _ _ h3,
    headerValues_injectParent_ne _ _ _ h2,
    headerValues_headerSet_ne _ _ _ _ h1]

theorem headerValues_abStep_ne (incoming h : Header) (name : String)
    (hne : toLowerStr name ≠ toLowerStr TraceIDKey) :
    headerValues (abStep incoming h) name = headerValues h name := by
  unfold abStep
  by_cases hg : headerGet incoming TraceIDKey ≠ ""
  · rw [if_pos hg, headerValues_headerSet_ne h _ _ name hne]
  · rw [if_neg hg]

theorem key_mem_foldl_forwardStep (incoming : Header) (names : List String) :
    ∀ (h : Header) (x : String),
      x ∈ (names.foldl (forwardStep incoming) h).map Prod.fst →
      x ∈ h.map Prod.fst ∨ (x ∈ names ∧ headerGet incoming x ≠ "") := by
  induction names with
  | nil => intro h x hx; exact Or.inl hx
  | cons a t ih =>
    intro h x hx
    rw [List.foldl_cons] at hx
    rcases ih (forwardStep incoming h a) x hx with h1 | h2
    · unfold forwardStep at h1
      by_cases hg : headerGet incoming a ≠ ""
      · rw [if_pos hg] at h1
        rcases key_mem_headerSet h a _ x h1 with hh | rfl
        · exact Or.inl hh
        · exact Or.inr ⟨List.mem_cons_self _ _, hg⟩
      · rw [if_neg hg] at h1
        exact Or.inl h1
    · exact Or.inr ⟨List.mem_cons_of_mem a h2.1, h2.2⟩

theorem key_mem_injectParent (sc : SpanContext) (h : Header) (x : String)
    (hx : x ∈ (injectParent sc h).map Prod.fst) :
    x ∈ h.map Prod.fst ∨ x = "x-b3-parentspanid" := by
  unfold injectParent at hx
  by_cases hp : sc.parentID ≠ 0
  · rw [if_pos hp] at hx
    exact key_mem_headerSet h _ _ x hx
  · rw [if_neg hp] at hx
    exact Or.inl hx

theorem key_mem_injectSampled (sc : SpanContext) (h : Header) (x : String)
    (hx : x ∈ (injectSampled sc h).map Prod.fst) :
    x ∈ h.map Prod.fst ∨ x = "x-b3-sampled" := by
  unfold injectSampled at hx
  by_cases hf : sc.flags % 2 = 1
  · rw [if_pos hf] at hx
    exact key_mem_headerSet h _ _ x hx
  · rw [if_neg hf] at hx
    exact key_mem_headerSet h _ _ x hx

theorem key_mem_tracerInject (sc : SpanContext) (h : Header) (x : String)
    (hx : x ∈ (tracerInject sc h).map Prod.fst) :
    x ∈ h.map Prod.fst ∨ x ∈ injectedHeaderNames := by
  unfold tracerInject at hx
  rcases key_mem_injectSampled _ _ _ hx with hx | rfl
  · rcases key_mem_headerSet _ _ _ _ hx with hx | rfl
    · rcases key_mem_injectParent _ _ _ hx with hx | rfl
      · rcases key_mem_headerSet _ _ _ _ hx with hx | rfl
        · exact Or.inl hx
        · exact Or.inr (by simp [injectedHeaderNames])
      · exact Or.inr (by simp [injectedHeaderNames])
    · exact Or.inr (by simp [injectedHeaderNames])
  · exact Or.inr (by simp [injectedHeaderNames])

theorem key_mem_abStep (incoming h : Header) (x : String)
    (hx : x ∈ (abStep incoming h).map Prod.fst) :
    x ∈ h.map Prod.fst ∨ x = TraceIDKey := by
  unfold abStep at hx
  by_cases hg : headerGet incoming TraceIDKey ≠ ""
  · rw [if_pos hg] at hx
    exact key_mem_headerSet h _ _ x hx
  · rw [if_neg hg] at hx
    exact Or.inl hx

/-- Structure of `InjectTrace` on a non-nil context: a span is always
started (child or root), and the resulting outbound headers are the
injection pipeline applied to the original outbound headers for the
started span's context. -/
theorem injectTrace_some_header (c : GoContext) (inc : RestfulRequest)
    (out : HTTPRequest) :
    ∃ sc, ((InjectTrace (some c) inc out).1).header
      = abStep inc.header (forwardAll inc.header (tracerInject sc out.header)) := by
  cases hcs : c.currentSpan with
  | some p =>
    exact ⟨(startSpanChild "outgoing request" p.context).context, by
      simp [InjectTrace, StartSpanFromContext, otStartSpanFromContext, hcs, setTagSpan]⟩
  | none =>
    exact ⟨(startSpanRoot "outgoing request").context, by
      simp [InjectTrace, StartSpanFromContext, otStartSpanFromContext, hcs, setTagSpan]⟩

theorem headerMatches_false_of_lower_ne (k a : String) (x : List String)
    (h : toLowerStr a ≠ toLowerStr k) : headerMatches k (a, x) = false := by
  simp [headerMatches, h]

theorem tracerInject_nil (sc : SpanContext) :
    tracerInject sc []
      = if sc.parentID ≠ 0 then
          [("x-b3-traceid", [toHexStr sc.traceID]),
            ("x-b3-parentspanid", [toHexStr sc.parentID]),
            ("x-b3-spanid", [toHexStr sc.spanID]),
            ("x-b3-sampled", [if sc.flags % 2 = 1 then "1" else "0"])]
        else
          [("x-b3-traceid", [toHexStr sc.traceID]),
            ("x-b3-spanid", [toHexStr sc.spanID]),
            ("x-b3-sampled", [if sc.flags % 2 = 1 then "1" else "0"])] := by
  have m1 : ∀ x, headerMatches "x-b3-parentspanid" ("x-b3-traceid", x) = false :=
    fun x => headerMatches_false_of_lower_ne _ _ x (by decide)
  have m2 : ∀ x, headerMatches "x-b3-spanid" ("x-b3-traceid", x) = false :=
    fun x => headerMatches_false_of_lower_ne _ _ x (by decide)
  have m3 : ∀ x, headerMatches "x-b3-spanid" ("x-b3-parentspanid", x) = false :=
    fun x => headerMatches_false_of_lower_ne _ _ x (by decide)
  have m4 : ∀ x, headerMatches "x-b3-sampled" ("x-b3-traceid", x) = false :=
    fun x => headerMatches_false_of_lower_ne _ _ x (by decide)
  have m5 : ∀ x, headerMatches "x-b3-sampled" ("x-b3-parentspanid", x) = false :=
    fun x => headerMatches_false_of_lower_ne _ _ x (by decide)
  have m6 : ∀ x, headerMatches "x-b3-sampled" ("x-b3-spanid", x) = false :=
    fun x => headerMatches_false_of_lower_ne _ _ x (by decide)
  by_cases hp : sc.parentID ≠ 0 <;> by_cases hf : sc.flags % 2 = 1 <;>
    simp [tracerInject, injectParent, injectSampled, headerSet, hp, hf,
      m1, m2, m3, m4, m5, m6]

theorem tracerExtract_tracerInject_nil (sc : SpanContext) (ht : sc.traceID ≠ 0) :
    tracerExtract (tracerInject sc [])
      = .ok ⟨sc.traceID, sc.spanID, sc.parentID,
          if sc.flags % 2 = 1 then 1 else 0⟩ := by
  rw [tracerInject_nil]
  have l1 : toLowerStr "x-b3-traceid" = "x-b3-traceid" := by decide
  have l2 : toLowerStr "x-b3-parentspanid" = "x-b3-parentspanid" := by decide
  have l3 : toLowerStr "x-b3-spanid" = "x-b3-spanid" := by decide
  have l4 : toLowerStr "x-b3-sampled" = "x-b3-sampled" := by decide
  by_cases hp : sc.parentID ≠ 0 <;> by_cases hf : sc.flags % 2 = 1
  · rw [if_pos hp, if_pos hf]
    simp [tracerExtract, extractStep, l1, l2, l3, l4, parseHex?_toHexStr, ht]
    rw [if_pos hf]
  · rw [if_pos hp, if_neg hf]
    simp [tracerExtract, extractStep, l1, l2, l3, l4, parseHex?_toHexStr, ht]
    rw [if_neg hf]
  · rw [if_neg hp, if_pos hf]
    simp [tracerExtract, extractStep, l1, l2, l3, l4, parseHex?_toHexStr, ht]
    simp at hp
    simp [hp]
    rw [if_pos hf]
  · rw [if_neg hp, if_neg hf]
    simp [tracerExtract, extractStep, l1, l2, l3, l4, parseHex?_toHexStr, ht]
    simp at hp
    simp [hp]
    rw [if_neg hf]

/-- Shared helper: what `InjectTrace` (with a present span) does to each
allow-listed header of the outbound request: the inbound first value when
non-empty (replacing whatever was there), otherwise the outbound entry is
left untouched. -/
theorem injectTrace_forward_values (c : GoContext) (inc : RestfulRequest)
    (out : HTTPRequest) (name : String) (hmem : name ∈ forwardHeaders) :
    (headerGet inc.header name ≠ "" →
      headerValues ((InjectTrace (some c) inc out).1).header name
        = [headerGet inc.header name])
    ∧ (headerGet inc.header name = "" →
      headerValues ((InjectTrace (some c) inc out).1).header name
        = headerValues out.header name) := by
  obtain ⟨sc, hh⟩ := injectTrace_some_header c inc out
  have hdist : forwardHeaders.Pairwise (fun a b => toLowerStr a ≠ toLowerStr b) := by
    decide
  have hfacts : ∀ n ∈ forwardHeaders,
      toLowerStr n ≠ toLowerStr TraceIDKey
      ∧ toLowerStr n ≠ toLowerStr "x-b3-traceid"
      ∧ toLowerStr n ≠ toLowerStr "x-b3-parentspanid"
      ∧ toLowerStr n ≠ toLowerStr "x-b3-spanid"
      ∧ toLowerStr n ≠ toLowerStr "x-b3-sampled" := by decide
  obtain ⟨hab, hi1, hi2, hi3, hi4⟩ := hfacts name hmem
  constructor
  · intro hg
    rw [hh, headerValues_abStep_ne _ _ _ hab]
    unfold forwardAll
    rw [headerValues_foldl_forwardStep_self inc.header name forwardHeaders _ hmem hdist hg]
  · intro hg
    rw [hh, headerValues_abStep_ne _ _ _ hab]
    unfold forwardAll
    rw [headerValues_foldl_forwardStep_empty inc.header name forwardHeaders _ hmem hdist hg,
      headerValues_tracerInject_ne sc out.header name hi1 hi2 hi3 hi4]

/-- C1 counterexample: on a nil context, `InjectTrace` returns before the
`X-Ab-TraceID` copy, so the inbound application trace-id header (here
`"T1"`) is NOT copied onto the outgoing request. -/
theorem c1_counterexample_nil_context_drops_app_trace_id :
    headerGet (([("X-Ab-TraceID", ["T1"])] : Header)) TraceIDKey = "T1"
    ∧ headerGet ((InjectTrace none
        ⟨[("X-Ab-TraceID", ["T1"])], "h", "/u", "GET", ⟨none⟩⟩
        ⟨[], "o", "/v", "POST"⟩).1).header TraceIDKey = "" := by
  exact ⟨by decide, by decide⟩

/-- C1 (amended): whenever `InjectTrace` is called with a non-nil context
(so a current span exists or a root span is started), the inbound
`X-Ab-TraceID` header's value is copied unchanged onto the outgoing
request.  On a nil context the function returns the request unmodified. -/
theorem c1_app_trace_id_copied_when_context_present (c : GoContext)
    (inc : RestfulRequest) (out : HTTPRequest)
    (hne : headerGet inc.header TraceIDKey ≠ "") :
    headerGet ((InjectTrace (some c) inc out).1).header TraceIDKey
      = headerGet inc.header TraceIDKey := by
  obtain ⟨sc, hh⟩ := injectTrace_some_header c inc out
  rw [hh]
  unfold abStep
  rw [if_pos hne, headerGet_headerSet_self]

/-- C1 witness: a concrete run exercising the amended theorem. -/
theorem c1_witness :
    headerGet (([("X-Ab-TraceID", ["T1"])] : Header)) TraceIDKey ≠ ""
    ∧ headerGet ((InjectTrace (some ⟨none⟩)
        ⟨[("X-Ab-TraceID", ["T1"])], "h", "/u", "GET", ⟨none⟩⟩
        ⟨[], "o", "/v", "POST"⟩).1).header TraceIDKey
      = headerGet (([("X-Ab-TraceID", ["T1"])] : Header)) TraceIDKey :=
  ⟨by decide,
    c1_app_trace_id_copied_when_context_present ⟨none⟩
      ⟨[("X-Ab-TraceID", ["T1"])], "h", "/u", "GET", ⟨none⟩⟩
      ⟨[], "o", "/v", "POST"⟩ (by decide)⟩

/-- C3: when header extraction fails (no recognized or a malformed
propagation context), `StartSpan` returns a present root span (no parent
reference) while `StartSpanIfParentSpanExist` returns a nil span and nil
context; neither signature carries the extraction error to the caller. -/
theorem c3_extract_failure_root_vs_absent (req : RestfulRequest) (op e : String)
    (herr : tracerExtract req.header = .error e) :
    (∃ s, (StartSpan req op).1 = some s ∧ s.parent = none)
    ∧ StartSpanIfParentSpanExist req op = (none, none) := by
  constructor
  · refine ⟨_, rfl, ?_⟩
    rw [herr]
    by_cases hab : headerGet req.header TraceIDKey ≠ "" <;>
      simp [hab, setTagSpan, startSpanRoot]
  · unfold StartSpanIfParentSpanExist
    rw [herr]

/-- C3 witness: a request with no recognized propagation header. -/
theorem c3_witness :
    (∃ s, (StartSpan ⟨[("X-Ab-TraceID", ["T1"])], "h", "/u", "GET", ⟨none⟩⟩ "op").1
        = some s ∧ s.parent = none)
    ∧ StartSpanIfParentSpanExist
        ⟨[("X-Ab-TraceID", ["T1"])], "h", "/u", "GET", ⟨none⟩⟩ "op" = (none, none) :=
  c3_extract_failure_root_vs_absent
    ⟨[("X-Ab-TraceID", ["T1"])], "h", "/u", "GET", ⟨none⟩⟩ "op"
    "opentracing: SpanContext not found in Extract carrier" rfl

/-- C4 counterexample: `AddTag` on a live span with an EMPTY value is not
a no-op — the empty-valued tag is recorded (the code only guards on the
span being non-nil, not on the value). -/
theorem c4_counterexample_empty_value_records_tag :
    AddTag (some (startSpanRoot "op")) "k" "" ≠ some (startSpanRoot "op")
    ∧ AddTag (some (startSpanRoot "op")) "k" ""
      = some { startSpanRoot "op" with tags := [("k", "")] } := by
  exact ⟨by decide, by decide⟩

/-- C4 (amended): all six façade operations are safe no-ops on an absent
span; an empty VALUE is a no-op only for `TraceSQLQuery` (empty query) and
`TraceError` (absent error), while `AddTag`/`AddLog`/`AddBaggage` on a
live span record the empty value (without faulting). -/
theorem c4_facade_noop_behavior (k v q : String) (e : GoError) (s : Span) :
    AddTag none k v = none
    ∧ AddLog none k v = none
    ∧ AddBaggage none k v = none
    ∧ Finish none = none
    ∧ TraceError none (some e) = none
    ∧ TraceError none none = none
    ∧ TraceSQLQuery none q = none
    ∧ TraceSQLQuery (some s) "" = some s
    ∧ TraceError (some s) none = some s
    ∧ AddTag (some s) k "" = some { s with tags := s.tags ++ [(k, "")] }
    ∧ AddLog (some s) k "" = some { s with logs := s.logs ++ [(k, "")] }
    ∧ AddBaggage (some s) k ""
      = some { s with baggage := s.baggage ++ [(k, "")] } := by
  refine ⟨rfl, rfl, rfl, rfl, rfl, rfl, rfl, ?_, rfl, rfl, rfl, rfl⟩
  simp [TraceSQLQuery]

/-- C5: `TraceError` with a live span and a present error appends exactly
one log entry `("error", message)` and exactly one tag
`("error", "true")`; with an absent error it is the identity; with an
absent span it stays absent (never faults). -/
theorem c5_trace_error_behavior (s : Span) (sp : Option Span) (e : GoError) :
    TraceError (some s) (some e)
        = some { s with logs := s.logs ++ [("error", e.msg)],
                        tags := s.tags ++ [("error", "true")] }
    ∧ TraceError sp none = sp
    ∧ TraceError none (some e) = none := by
  refine ⟨rfl, ?_, rfl⟩
  cases sp <;> rfl

/-- C9: on a nil context, `StartSpanFromContext` returns a nil span and
the given (nil) context without starting anything; `StartDBSpan` and the
parse-failure fallback of `ChildSpanFromRemoteSpan` inherit this instead
of panicking. -/
theorem c9_nil_context_absent_span (name op str e : String)
    (herr : contextFromString str = .error e) :
    StartSpanFromContext none name = (none, none)
    ∧ StartDBSpan none op = (none, none)
    ∧ ChildSpanFromRemoteSpan none name str = (none, none) := by
  refine ⟨rfl, rfl, ?_⟩
  unfold ChildSpanFromRemoteSpan
  rw [herr]
  rfl

/-- C9 witness: concrete nil-context runs (the string `"x"` does not parse
as a serialized span context). -/
theorem c9_witness :
    StartSpanFromContext none "n" = (none, none)
    ∧ StartDBSpan none "o" = (none, none)
    ∧ ChildSpanFromRemoteSpan none "n" "x" = (none, none) :=
  c9_nil_context_absent_span "n" "o" "x" "malformed tracer state string" rfl

/-- C6: injecting a span's (valid: nonzero trace id) context into a fresh
header mapping via the installed codec and extracting from those same
headers yields a context with identical trace id and span id. -/
theorem c6_inject_extract_roundtrip (s : Span) (req : HTTPRequest)
    (rreq : RestfulRequest)
    (hvalid : s.context.traceID ≠ 0)
    (hfresh : req.header = [])
    (hsame : rreq.header = ((InjectSpanIntoRequest (some s) req).1).header) :
    ∃ sc, ExtractRequestHeader rreq = .ok sc
      ∧ sc.traceID = s.context.traceID ∧ sc.spanID = s.context.spanID := by
  refine ⟨⟨s.context.traceID, s.context.spanID, s.context.parentID,
    if s.context.flags % 2 = 1 then 1 else 0⟩, ?_, rfl, rfl⟩
  unfold ExtractRequestHeader
  rw [hsame]
  unfold InjectSpanIntoRequest
  simp only [hfresh]
  exact tracerExtract_tracerInject_nil s.context hvalid

/-- C6 witness: a concrete round trip through the codec. -/
theorem c6_witness :
    ∃ sc, ExtractRequestHeader
        ⟨((InjectSpanIntoRequest
            (some ⟨"op", [], [], [], none, ⟨10, 11, 12, 1⟩, false⟩)
            ⟨[], "h", "/", "GET"⟩).1).header, "h", "/", "GET", ⟨none⟩⟩
      = .ok sc ∧ sc.traceID = 10 ∧ sc.spanID = 11 :=
  c6_inject_extract_roundtrip
    ⟨"op", [], [], [], none, ⟨10, 11, 12, 1⟩, false⟩
    ⟨[], "h", "/", "GET"⟩
    ⟨((InjectSpanIntoRequest
        (some ⟨"op", [], [], [], none, ⟨10, 11, 12, 1⟩, false⟩)
        ⟨[], "h", "/", "GET"⟩).1).header, "h", "/", "GET", ⟨none⟩⟩
    (by decide) rfl rfl

/-- C7: `ChildSpanFromRemoteSpan` is total: a parsable serialized context
yields a child of the parsed context (returning the given ambient context
unchanged); on a parse failure it falls back to
`StartSpanFromContext` on the ambient context — in particular, when that
context carries a current span, the result is a present child of it. -/
theorem c7_child_span_from_remote_span (rootCtx : Option GoContext)
    (name str : String) :
    (∀ sc, contextFromString str = .ok sc →
      ChildSpanFromRemoteSpan rootCtx name str
          = (some (startSpanChild name sc), rootCtx)
        ∧ (startSpanChild name sc).parent = some sc)
    ∧ (∀ e, contextFromString str = .error e →
      ChildSpanFromRemoteSpan rootCtx name str = StartSpanFromContext rootCtx name
        ∧ ∀ c p, rootCtx = some c → c.currentSpan = some p →
            (ChildSpanFromRemoteSpan rootCtx name str).1
              = some (startSpanChild name p.context)) := by
  constructor
  · intro sc hok
    unfold ChildSpanFromRemoteSpan
    rw [hok]
    exact ⟨rfl, rfl⟩
  · intro e herr
    unfold ChildSpanFromRemoteSpan
    rw [herr]
    refine ⟨rfl, ?_⟩
    rintro c p rfl hcp
    simp [StartSpanFromContext, otStartSpanFromContext, hcp]

/-- C7 witness: a parsable context string (`"a:b:c:1"`) and an unparsable
one (`"bad"`) against an ambient context with a current span. -/
theorem c7_witness :
    ChildSpanFromRemoteSpan (some ⟨some (startSpanRoot "root")⟩) "op" "a:b:c:1"
        = (some (startSpanChild "op" ⟨10, 11, 12, 1⟩),
            some ⟨some (startSpanRoot "root")⟩)
    ∧ (ChildSpanFromRemoteSpan (some ⟨some (startSpanRoot "root")⟩) "op" "bad").1
        = some (startSpanChild "op" (startSpanRoot "root").context) :=
  ⟨((c7_child_span_from_remote_span (some ⟨some (startSpanRoot "root")⟩)
      "op" "a:b:c:1").1 ⟨10, 11, 12, 1⟩ rfl).1,
    ((c7_child_span_from_remote_span (some ⟨some (startSpanRoot "root")⟩)
      "op" "bad").2 "malformed tracer state string" rfl).2 _ _ rfl rfl⟩

/-- C8: in the debug-logged header mapping, every header whose lower-cased
name contains `"auth"` is omitted entirely (no logged entry has its name),
and every other header appears, lower-cased, with its first value. -/
theorem c8_debug_header_redaction (h : Header) (k : String) (vs : List String)
    (v : String) (hmem : (k, vs) ∈ h) :
    (containsAuth (toLowerStr k) = true →
      (debugHeaderMap h).all (fun p => p.1 != toLowerStr k) = true)
    ∧ (containsAuth (toLowerStr k) = false → vs.head? = some v →
      (toLowerStr k, v) ∈ debugHeaderMap h) := by
  constructor
  · intro hauth
    rw [List.all_eq_true]
    intro p hp
    obtain ⟨kv, hkv, hf⟩ := List.mem_filterMap.mp hp
    by_cases ha : containsAuth (toLowerStr kv.1) = true
    · rw [if_pos ha] at hf
      cases hf
    · rw [if_neg ha] at hf
      cases hv0 : kv.2 with
      | nil =>
        rw [hv0] at hf
        cases hf
      | cons v0 vt =>
        rw [hv0] at hf
        cases hf
        simp only [bne_iff_ne, ne_eq]
        intro hcontra
        exact ha (hcontra ▸ hauth)
  · intro hna hv
    apply List.mem_filterMap.mpr
    refine ⟨(k, vs), hmem, ?_⟩
    rw [if_neg (by simp [hna])]
    cases vs with
    | nil => cases hv
    | cons v0 vt =>
      cases hv
      rfl

/-- C8 witness: an `Authorization` header is omitted from the logged
mapping while `X-Request-Id` appears lower-cased with its first value. -/
theorem c8_witness :
    (debugHeaderMap [("Authorization", ["secret"]), ("X-Request-Id", ["r1"])]).all
        (fun p => p.1 != toLowerStr "Authorization") = true
    ∧ (toLowerStr "X-Request-Id", "r1")
        ∈ debugHeaderMap [("Authorization", ["secret"]), ("X-Request-Id", ["r1"])] :=
  ⟨(c8_debug_header_redaction
      [("Authorization", ["secret"]), ("X-Request-Id", ["r1"])]
      "Authorization" ["secret"] "secret" (by decide)).1 (by decide),
    (c8_debug_header_redaction
      [("Authorization", ["secret"]), ("X-Request-Id", ["r1"])]
      "X-Request-Id" ["r1"] "r1" (by decide)).2 (by decide) rfl⟩

/-- C10: the forwarding loop of `InjectTrace` copies an allow-listed
inbound header only when its first value is non-empty, and then copies
exactly that single first value, replacing any existing values on the
outbound request; with an empty (or no) first value the outbound entry is
left exactly as it was. -/
theorem c10_forwarding_first_nonempty_value (c : GoContext)
    (inc : RestfulRequest) (out : HTTPRequest) (name : String)
    (hmem : name ∈ forwardHeaders) :
    (headerGet inc.header name ≠ "" →
      headerValues ((InjectTrace (some c) inc out).1).header name
        = [headerGet inc.header name])
    ∧ (headerGet inc.header name = "" →
      headerValues ((InjectTrace (some c) inc out).1).header name
        = headerValues out.header name) :=
  injectTrace_forward_values c inc out name hmem

/-- C10 witness: a multi-valued inbound `X-Request-Id` (values
`["a", "b"]`) replaces the existing outbound value `"z"` with exactly the
single first value `"a"`. -/
theorem c10_witness :
    headerValues ((InjectTrace (some ⟨none⟩)
        ⟨[("X-Request-Id", ["a", "b"])], "h", "/u", "GET", ⟨none⟩⟩
        ⟨[("x-request-id", ["z"])], "o", "/v", "POST"⟩).1).header "x-request-id"
      = ["a"] :=
  ((c10_forwarding_first_nonempty_value ⟨none⟩
      ⟨[("X-Request-Id", ["a", "b"])], "h", "/u", "GET", ⟨none⟩⟩
      ⟨[("x-request-id", ["z"])], "o", "/v", "POST"⟩ "x-request-id"
      (by decide)).1 (by decide)).trans (by decide)

/-- C2 counterexample: the allow-listed `x-request-id` header is PRESENT
on the inbound request (with an empty first value) yet is entirely absent
from the outbound headers `InjectTrace` produces: among the allow-listed
headers present inbound, presence alone is not preserved. -/
theorem c2_counterexample_empty_valued_header_omitted :
    (("x-request-id", [""]) ∈ ([("x-request-id", [""])] : Header))
    ∧ headerValues ((InjectTrace (some ⟨none⟩)
        ⟨[("x-request-id", [""])], "h", "/u", "GET", ⟨none⟩⟩
        ⟨[], "o", "/v", "POST"⟩).1).header "x-request-id" = [] := by
  exact ⟨by decide, by decide⟩

/-- C2 (amended): with a present span and an outgoing request carrying no
pre-existing headers, the outbound headers are exactly: each allow-listed
header whose inbound first value is NON-EMPTY (copied as that single
value); nothing for allow-listed names with an empty first value; no key
outside the allow-list except the tracer-injected B3 headers and the
application trace-id header; and the injected `x-b3-traceid`,
`x-b3-spanid` and `x-b3-sampled` headers are always present. -/
theorem c2_outbound_headers_characterization (c : GoContext)
    (inc : RestfulRequest) (out : HTTPRequest) (hout : out.header = []) :
    (∀ name ∈ forwardHeaders, headerGet inc.header name ≠ "" →
      headerValues ((InjectTrace (some c) inc out).1).header name
        = [headerGet inc.header name])
    ∧ (∀ name ∈ forwardHeaders, headerGet inc.header name = "" →
      headerValues ((InjectTrace (some c) inc out).1).header name = [])
    ∧ (∀ kv ∈ ((InjectTrace (some c) inc out).1).header,
        kv.1 ∈ injectedHeaderNames
        ∨ (kv.1 ∈ forwardHeaders ∧ headerGet inc.header kv.1 ≠ "")
        ∨ kv.1 = TraceIDKey)
    ∧ headerValues ((InjectTrace (some c) inc out).1).header "x-b3-traceid" ≠ []
    ∧ headerValues ((InjectTrace (some c) inc out).1).header "x-b3-spanid" ≠ []
    ∧ headerValues ((InjectTrace (some c) inc out).1).header "x-b3-sampled" ≠ [] := by
  obtain ⟨sc, hh⟩ := injectTrace_some_header c inc out
  have hpres : ∀ nm : String, toLowerStr nm ≠ toLowerStr TraceIDKey →
      (∀ n ∈ forwardHeaders, toLowerStr nm ≠ toLowerStr n) →
      headerValues ((InjectTrace (some c) inc out).1).header nm
        = headerValues (tracerInject sc out.header) nm := by
    intro nm h1 h2
    rw [hh, headerValues_abStep_ne _ _ _ h1]
    unfold forwardAll
    rw [headerValues_foldl_forwardStep_ne inc.header nm forwardHeaders _ h2]
  refine ⟨?_, ?_, ?_, ?_, ?_, ?_⟩
  · intro name hmem hg
    exact (injectTrace_forward_values c inc out name hmem).1 hg
  · intro name hmem hg
    rw [(injectTrace_forward_values c inc out name hmem).2 hg, hout]
    rfl
  · intro kv hkv
    rw [hh] at hkv
    have hk : kv.1 ∈ (abStep inc.header
        (forwardAll inc.header (tracerInject sc out.header))).map Prod.fst :=
      List.mem_map_of_mem Prod.fst hkv
    rcases key_mem_abStep _ _ _ hk with hk | hk
    · unfold forwardAll at hk
      rcases key_mem_foldl_forwardStep inc.header forwardHeaders _ _ hk with hk | hk
      · rcases key_mem_tracerInject _ _ _ hk with hk | hk
        · rw [hout] at hk
          simp at hk
        · exact Or.inl hk
      · exact Or.inr (Or.inl hk)
    · exact Or.inr (Or.inr hk)
  · rw [hpres "x-b3-traceid" (by decide) (by decide)]
    unfold tracerInject
    rw [headerValues_injectSampled_ne _ _ _ (by decide),
      headerValues_headerSet_ne _ _ _ _ (by decide),
      headerValues_injectParent_ne _ _ _ (by decide),
      headerValues_headerSet_self]
    simp
  · rw [hpres "x-b3-spanid" (by decide) (by decide)]
    unfold tracerInject
    rw [headerValues_injectSampled_ne _ _ _ (by decide),
      headerValues_headerSet_self]
    simp
  · rw [hpres "x-b3-sampled" (by decide) (by decide)]
    unfold tracerInject injectSampled
    by_cases hf : sc.flags % 2 = 1
    · rw [if_pos hf, headerValues_headerSet_self]
      simp
    · rw [if_neg hf, headerValues_headerSet_self]
      simp

/-- C2 witness: a concrete outbound call: the non-empty inbound
`X-Request-Id` is forwarded as its single value, the empty-valued inbound
`traceparent` is not, and the injected trace-id header is present. -/
theorem c2_witness :
    headerValues ((InjectTrace (some ⟨none⟩)
        ⟨[("X-Request-Id", ["abc123"]), ("Traceparent", [""])], "h", "/u", "GET", ⟨none⟩⟩
        ⟨[], "o", "/v", "POST"⟩).1).header "x-request-id" = ["abc123"]
    ∧ headerValues ((InjectTrace (some ⟨none⟩)
        ⟨[("X-Request-Id", ["abc123"]), ("Traceparent", [""])], "h", "/u", "GET", ⟨none⟩⟩
        ⟨[], "o", "/v", "POST"⟩).1).header "traceparent" = []
    ∧ headerValues ((InjectTrace (some ⟨none⟩)
        ⟨[("X-Request-Id", ["abc123"]), ("Traceparent", [""])], "h", "/u", "GET", ⟨none⟩⟩
        ⟨[], "o", "/v", "POST"⟩).1).header "x-b3-traceid" ≠ [] :=
  ⟨((c2_outbound_headers_characterization ⟨none⟩
      ⟨[("X-Request-Id", ["abc123"]), ("Traceparent", [""])], "h", "/u", "GET", ⟨none⟩⟩
      ⟨[], "o", "/v", "POST"⟩ rfl).1 "x-request-id" (by decide) (by decide)).trans
      (by decide),
    (c2_outbound_headers_characterization ⟨none⟩
      ⟨[("X-Request-Id", ["abc123"]), ("Traceparent", [""])], "h", "/u", "GET", ⟨none⟩⟩
      ⟨[], "o", "/v", "POST"⟩ rfl).2.1 "traceparent" (by decide) (by decide),
    (c2_outbound_headers_characterization ⟨none⟩
      ⟨[("X-Request-Id", ["abc123"]), ("Traceparent", [""])], "h", "/u", "GET", ⟨none⟩⟩
      ⟨[], "o", "/v", "POST"⟩ rfl).2.2.2.1⟩
